import Mathlib

/-!
Shallow embedding of the signal computation core of the crypto-futures
analyzer (modules `src/analysis/funding.py`, `src/analysis/technical.py`,
`src/analysis/liquidation.py`, `src/analysis/signals.py`).

Modelling conventions:
* Python floats are modelled as rationals (`ℚ`).  Where the Python code
  relies on IEEE special values (numpy `inf` / `NaN` arising from division
  by zero inside the RSI computation) the embedding makes the case split
  explicit and represents a NaN entry as `Option.none`.
* Python `round(x, 1)` is modelled by `round1` (round half away from zero
  upward on the scaled value); none of the claims below depends on the
  behaviour at an exact tie.
* The tri-state string fields (`'long' / 'short' / 'neutral'` and friends)
  are modelled by inductive types.  Human-readable reason strings, which
  interpolate formatted numbers, are modelled by `Reason` tags recording
  which reason was appended.
* Metadata that no computation reads (symbols, timeframes, timestamps,
  formatted description strings) is either carried through unchanged
  (`symbol`, `timeframe`) or omitted (timestamps, descriptions).
-/

namespace CryptoAnalyzer

/-- Directional value of a lens: the strings `'long' | 'short' | 'neutral'`. -/
inductive Direction where
  | long
  | short
  | neutral
deriving DecidableEq

/-- Funding intensity strings `'extreme' | 'high' | 'moderate' | 'low'`. -/
inductive Intensity where
  | extreme
  | high
  | moderate
  | low
deriving DecidableEq

/-- Crossover detector result strings `'bullish' | 'bearish' | 'none'`. -/
inductive Crossover where
  | bullish
  | bearish
  | none
deriving DecidableEq

/-- RSI classification strings `'oversold' | 'overbought' | 'neutral'`. -/
inductive RsiClass where
  | oversold
  | overbought
  | neutral
deriving DecidableEq

/-- Aggregated strength categories (enum `SignalStrength` in `signals.py`). -/
inductive StrengthCat where
  | weak
  | moderate
  | strong
  | very_strong
deriving DecidableEq

/-- Tags for the human-readable reason strings appended by
`aggregate_signals`; each tag records which `reasons.append(...)` fired. -/
inductive Reason where
  | technicalLong
  | technicalShort
  | fundingLong
  | fundingShort
  | liquidationLong
  | liquidationShort
  | allThreeAgree
  | twoAgree
deriving DecidableEq

/-- Python `round(x, 1)`: scale by ten, round to an integer, scale back. -/
def round1 (x : ℚ) : ℚ := (round (10 * x) : ℤ) / 10

/-! ## Funding rate classifier (`src/analysis/funding.py`) -/

/-- Embedding of the dataclass `FundingSignal` (description string and
`next_funding_time` metadata omitted: nothing reads them). -/
structure FundingSignal where
  symbol : String
  funding_rate : ℚ
  funding_rate_raw : ℚ
  signal : Direction
  intensity : Intensity
  score : ℚ
deriving DecidableEq

/-- Default thresholds of `analyze_funding_rate`. -/
def defaultExtremePositive : ℚ := 1/10
def defaultExtremeNegative : ℚ := -(1/10)
def defaultHighPositive : ℚ := 1/20
def defaultHighNegative : ℚ := -(1/20)

/-- Embedding of `analyze_funding_rate`: the ordered threshold cascade on the
signed funding-rate percentage, first match wins. -/
def analyze_funding_rate (symbol : String) (funding_rate : ℚ)
    (extreme_positive_threshold extreme_negative_threshold : ℚ)
    (high_positive_threshold high_negative_threshold : ℚ) : FundingSignal :=
  let res : Direction × Intensity × ℚ :=
    if funding_rate ≤ extreme_negative_threshold then
      (Direction.long, Intensity.extreme,
        min (|funding_rate| / |extreme_negative_threshold| * 5) 10)
    else if funding_rate ≤ high_negative_threshold then
      (Direction.long, Intensity.high,
        min (|funding_rate| / |extreme_negative_threshold| * 4) 7)
    else if funding_rate ≥ extreme_positive_threshold then
      (Direction.short, Intensity.extreme,
        min (funding_rate / extreme_positive_threshold * 5) 10)
    else if funding_rate ≥ high_positive_threshold then
      (Direction.short, Intensity.high,
        min (funding_rate / extreme_positive_threshold * 4) 7)
    else if funding_rate > 1/100 then
      (Direction.short, Intensity.moderate, 2)
    else if funding_rate < -(1/100) then
      (Direction.long, Intensity.moderate, 2)
    else
      (Direction.neutral, Intensity.low, 0)
  { symbol := symbol
    funding_rate := funding_rate
    funding_rate_raw := funding_rate / 100
    signal := res.1
    intensity := res.2.1
    score := round1 res.2.2 }

/-- Shorthand: `analyze_funding_rate` at the default thresholds. -/
def fundingDefault (rate : ℚ) : FundingSignal :=
  analyze_funding_rate "BTCUSDT" rate defaultExtremePositive
    defaultExtremeNegative defaultHighPositive defaultHighNegative

/-! ## Liquidation classifier (`src/analysis/liquidation.py`) -/

/-- Embedding of the dataclass `LiquidationSignal` (formatted description
string omitted: nothing reads it). -/
structure LiquidationSignal where
  symbol : String
  total_long_liquidations_usd : ℚ
  total_short_liquidations_usd : ℚ
  net_liquidations_usd : ℚ
  signal : Direction
  score : ℚ
deriving DecidableEq

/-- Embedding of `analyze_liquidations`: the ordered significance cascade on
the long/short liquidation USD totals. -/
def analyze_liquidations (symbol : String)
    (long_liquidations_usd short_liquidations_usd threshold_usd : ℚ) :
    LiquidationSignal :=
  let total_liquidations := long_liquidations_usd + short_liquidations_usd
  let res : Direction × ℚ :=
    if total_liquidations < threshold_usd / 2 then
      (Direction.neutral, 0)
    else if threshold_usd ≤ long_liquidations_usd ∧
        short_liquidations_usd * (3/2) < long_liquidations_usd then
      (Direction.long,
        min (min (long_liquidations_usd / threshold_usd) 5 +
          min (long_liquidations_usd / max short_liquidations_usd 1 - 1) 5) 10)
    else if threshold_usd ≤ short_liquidations_usd ∧
        long_liquidations_usd * (3/2) < short_liquidations_usd then
      (Direction.short,
        min (min (short_liquidations_usd / threshold_usd) 5 +
          min (short_liquidations_usd / max long_liquidations_usd 1 - 1) 5) 10)
    else if threshold_usd ≤ total_liquidations then
      (Direction.neutral, 0)
    else
      (Direction.neutral, 0)
  { symbol := symbol
    total_long_liquidations_usd := long_liquidations_usd
    total_short_liquidations_usd := short_liquidations_usd
    net_liquidations_usd := long_liquidations_usd - short_liquidations_usd
    signal := res.1
    score := round1 res.2 }

/-! ## Indicator calculator (`src/analysis/technical.py`)

The pandas pipeline is embedded over `List ℚ`.  A NaN entry produced by
`diff` / `rolling` / `0/0` is represented as `Option.none`; pandas
comparisons against NaN are `False`, and `where(cond, 0)` therefore turns
the leading NaN of `diff` into `0`, which the embedding reproduces. -/

/-- One OHLCV bar, restricted to the two columns the analysis reads. -/
structure Bar where
  close : ℚ
  volume : ℚ
deriving DecidableEq

/-- The series `delta.where(delta > 0, 0)`: per-bar positive deltas with the
leading NaN of `diff` zero-filled (NaN > 0 is `False` in pandas). -/
def gains : List ℚ → List ℚ
  | [] => []
  | c :: rest =>
      0 :: List.zipWith (fun prev cur => if 0 < cur - prev then cur - prev else 0)
        (c :: rest) rest

/-- The series `(-delta).where(delta < 0, 0)`: per-bar negative deltas,
negated, with the leading NaN zero-filled. -/
def losses : List ℚ → List ℚ
  | [] => []
  | c :: rest =>
      0 :: List.zipWith (fun prev cur => if cur - prev < 0 then -(cur - prev) else 0)
        (c :: rest) rest

/-- `rolling(window=p).mean()` with the default `min_periods = p`: entry `i`
is the mean of entries `i+1-p .. i`, and `none` (NaN) while fewer than `p`
entries are available. -/
def rollMean (p : ℕ) (l : List ℚ) : List (Option ℚ) :=
  (List.range l.length).map (fun i =>
    if p ≤ i + 1 then some (((l.drop (i + 1 - p)).take p).sum / p) else none)

/-- One entry of `rsi = 100 - 100/(1 + gain/loss)` under numpy float
division: `gain/0 = inf` saturates the formula at `100`, and `0/0 = NaN`
makes the entry NaN (`none`). -/
def rsiPoint (g l : ℚ) : Option ℚ :=
  if l = 0 then (if g = 0 then none else some 100)
  else some (100 - 100 / (1 + g / l))

/-- Embedding of `calculate_rsi`: rolling means of gains and losses combined
pointwise by `rsiPoint`. -/
def calculate_rsi (closes : List ℚ) (period : ℕ) : List (Option ℚ) :=
  List.zipWith
    (fun og ol =>
      match og, ol with
      | some gv, some lv => rsiPoint gv lv
      | _, _ => none)
    (rollMean period (gains closes)) (rollMean period (losses closes))

/-- The trailing rolling average gain read by `rsi.iloc[-1]`. -/
def avg_gain_last (closes : List ℚ) (period : ℕ) : Option ℚ :=
  (rollMean period (gains closes)).getLast?.join

/-- The trailing rolling average loss read by `rsi.iloc[-1]`. -/
def avg_loss_last (closes : List ℚ) (period : ℕ) : Option ℚ :=
  (rollMean period (losses closes)).getLast?.join

/-- `rsi.iloc[-1]`, the only RSI entry the classifier consumes. -/
def rsi_last (closes : List ℚ) (period : ℕ) : Option ℚ :=
  (calculate_rsi closes period).getLast?.join

/-- Tail of `ewm(span, adjust=False).mean()` after the seed:
`ema[i] = α·price[i] + (1-α)·ema[i-1]`. -/
def ewmFrom (a : ℚ) (prev : ℚ) : List ℚ → List ℚ
  | [] => []
  | x :: rest =>
      let e := a * x + (1 - a) * prev
      e :: ewmFrom a e rest

/-- `ewm(span, adjust=False).mean()`: exponential smoothing with
`α = 2/(span+1)`, seeded by the first value. -/
def ewmMean (span : ℕ) : List ℚ → List ℚ
  | [] => []
  | x :: rest => x :: ewmFrom (2 / ((span : ℚ) + 1)) x rest

/-- Embedding of `calculate_ema`. -/
def calculate_ema (closes : List ℚ) (period : ℕ) : List ℚ :=
  ewmMean period closes

/-- Embedding of `calculate_macd`: `(macd line, signal line, histogram)`. -/
def calculate_macd (closes : List ℚ) (fast slow signal : ℕ) :
    List ℚ × List ℚ × List ℚ :=
  let ema_fast := ewmMean fast closes
  let ema_slow := ewmMean slow closes
  let macd_line := List.zipWith (fun a b => a - b) ema_fast ema_slow
  let signal_line := ewmMean signal macd_line
  let histogram := List.zipWith (fun a b => a - b) macd_line signal_line
  (macd_line, signal_line, histogram)

/-- Embedding of `calculate_volume_ratio`: last volume over the mean of the
trailing `period` volumes, defaulting to `1` when the mean is not positive;
`none` models the `iloc[-1]` IndexError on an empty frame. -/
def calculate_volume_ratio (volumes : List ℚ) (period : ℕ) : Option ℚ :=
  match volumes.getLast? with
  | Option.none => Option.none
  | some current =>
      let window := volumes.drop (volumes.length - period)
      let avg := window.sum / (window.length : ℚ)
      if 0 < avg then some (current / avg) else some 1

/-- The differences `(iloc[-2], iloc[-1])` of two series, read positionally
(defaults are unreachable under the length guard of the detectors). -/
def prevCurrDiff (a b : List ℚ) : ℚ × ℚ :=
  (a.getD (a.length - 2) 0 - b.getD (b.length - 2) 0,
   a.getD (a.length - 1) 0 - b.getD (b.length - 1) 0)

/-- Embedding of `detect_macd_crossover`: strict sign flip of
`macd - signal` across the last two bars. -/
def detect_macd_crossover (macd signal_line : List ℚ) : Crossover :=
  if macd.length < 2 ∨ signal_line.length < 2 then Crossover.none
  else
    let prev_diff := (prevCurrDiff macd signal_line).1
    let curr_diff := (prevCurrDiff macd signal_line).2
    if prev_diff < 0 ∧ 0 < curr_diff then Crossover.bullish
    else if 0 < prev_diff ∧ curr_diff < 0 then Crossover.bearish
    else Crossover.none

/-- Embedding of `detect_ema_crossover`: the same strict sign-flip test on
`ema_short - ema_long`. -/
def detect_ema_crossover (ema_short ema_long : List ℚ) : Crossover :=
  if ema_short.length < 2 ∨ ema_long.length < 2 then Crossover.none
  else
    let prev_diff := (prevCurrDiff ema_short ema_long).1
    let curr_diff := (prevCurrDiff ema_short ema_long).2
    if prev_diff < 0 ∧ 0 < curr_diff then Crossover.bullish
    else if 0 < prev_diff ∧ curr_diff < 0 then Crossover.bearish
    else Crossover.none

/-! ## Technical bias classifier (`src/analysis/technical.py`) -/

/-- The `(long_score, short_score)` accumulation of `calculate_bias`,
contribution by contribution in source order: RSI, MACD crossover (with the
histogram fallback when there is no crossover), EMA crossover, price versus
long EMA, and the volume-spike bonus for the currently leading side. -/
def bias_scores (rsi_signal : RsiClass) (current_rsi : ℚ)
    (macd_crossover : Crossover) (current_histogram : ℚ)
    (ema_crossover : Crossover) (price_vs_ema : ℚ) (volume_spike : Bool)
    (rsi_oversold rsi_overbought : ℚ) : ℚ × ℚ :=
  let ls0 : ℚ :=
    if rsi_signal = RsiClass.oversold then
      2 + min ((rsi_oversold - current_rsi) / rsi_oversold) 1
    else 0
  let ss0 : ℚ :=
    if rsi_signal = RsiClass.overbought then
      2 + min ((current_rsi - rsi_overbought) / (100 - rsi_overbought)) 1
    else 0
  let ls1 := ls0 +
    (if macd_crossover = Crossover.bullish then 5/2
     else if macd_crossover = Crossover.bearish then 0
     else if 0 < current_histogram then 1/2 else 0)
  let ss1 := ss0 +
    (if macd_crossover = Crossover.bearish then 5/2
     else if macd_crossover = Crossover.bullish then 0
     else if current_histogram < 0 then 1/2 else 0)
  let ls2 := ls1 + (if ema_crossover = Crossover.bullish then 2 else 0)
  let ss2 := ss1 + (if ema_crossover = Crossover.bearish then 2 else 0)
  let ls3 := ls2 + (if 2 < price_vs_ema then min (price_vs_ema / 4) (3/2) else 0)
  let ss3 := ss2 + (if price_vs_ema < -2 then min (|price_vs_ema| / 4) (3/2) else 0)
  let ls4 := ls3 + (if volume_spike then (if ss3 < ls3 then 1 else 0) else 0)
  let ss4 := ss3 + (if volume_spike then (if ls3 < ss3 then 1 else 0) else 0)
  (ls4, ss4)

/-- Embedding of `calculate_bias`: the margin-of-1 decision on the
accumulated scores, with the winning score capped at 10 and rounded. -/
def calculate_bias (rsi_signal : RsiClass) (current_rsi : ℚ)
    (macd_crossover : Crossover) (current_histogram : ℚ)
    (ema_crossover : Crossover) (price_vs_ema : ℚ) (volume_spike : Bool)
    (rsi_oversold rsi_overbought : ℚ) : Direction × ℚ :=
  let scores := bias_scores rsi_signal current_rsi macd_crossover
    current_histogram ema_crossover price_vs_ema volume_spike
    rsi_oversold rsi_overbought
  let long_score := scores.1
  let short_score := scores.2
  if short_score + 1 < long_score then
    (Direction.long, round1 (min long_score 10))
  else if long_score + 1 < short_score then
    (Direction.short, round1 (min short_score 10))
  else
    (Direction.neutral, round1 0)

/-- Embedding of the dataclass `TechnicalSignal`; the `rsi` field is `none`
when the pandas value is NaN. -/
structure TechnicalSignal where
  symbol : String
  timeframe : String
  rsi : Option ℚ
  rsi_signal : RsiClass
  macd : ℚ
  macd_signal : ℚ
  macd_histogram : ℚ
  macd_crossover : Crossover
  ema_short : ℚ
  ema_long : ℚ
  ema_crossover : Crossover
  price_vs_ema : ℚ
  volume_ratio : ℚ
  volume_spike : Bool
  current_price : ℚ
  price_change_percent : ℚ
  bias : Direction
  strength : ℚ
deriving DecidableEq

/-- `series.iloc[-1]` for a series known to be nonempty (the default is
unreachable under the length guard of `analyze_technicals`). -/
def lastD (l : List ℚ) : ℚ := l.getD (l.length - 1) 0

/-- `series.iloc[-2]` for a series known to have two entries. -/
def prevD (l : List ℚ) : ℚ := l.getD (l.length - 2) 0

/-- Embedding of `analyze_technicals`: the insufficient-data guard, the
indicator pipeline at the default periods (RSI 14, MACD 12/26/9, volume
window 20), and the final bias computation.  A NaN `rsi.iloc[-1]` compares
`False` against both thresholds, so it classifies as `neutral`, in which
case `calculate_bias` never reads the RSI value. -/
def analyze_technicals (df : List Bar) (symbol timeframe : String)
    (rsi_oversold rsi_overbought : ℚ) (ema_short_period ema_long_period : ℕ)
    (volume_spike_threshold : ℚ) : Option TechnicalSignal :=
  if df.length < max ema_long_period 26 + 10 then Option.none
  else
    let closes := df.map Bar.close
    let volumes := df.map Bar.volume
    let macd3 := calculate_macd closes 12 26 9
    let ema_s := calculate_ema closes ema_short_period
    let ema_l := calculate_ema closes ema_long_period
    let vr := ( calculate_volume_ratio volumes 20).getD 1
    let current_rsi := rsi_last closes 14
    let current_price := lastD closes
    let price_change :=
      if 2 ≤ df.length then
        (current_price - prevD closes) / prevD closes * 100
      else 0
    let rsi_sig :=
      match current_rsi with
      | Option.none => RsiClass.neutral
      | some v =>
          if v ≤ rsi_oversold then RsiClass.oversold
          else if rsi_overbought ≤ v then RsiClass.overbought
          else RsiClass.neutral
    let mc := detect_macd_crossover macd3.1 macd3.2.1
    let ec := detect_ema_crossover ema_s ema_l
    let pve := (current_price - lastD ema_l) / lastD ema_l * 100
    let spike : Bool := volume_spike_threshold ≤ vr
    let bs := calculate_bias rsi_sig (current_rsi.getD 0) mc
      (lastD macd3.2.2) ec pve spike rsi_oversold rsi_overbought
    some
      { symbol := symbol
        timeframe := timeframe
        rsi := current_rsi
        rsi_signal := rsi_sig
        macd := lastD macd3.1
        macd_signal := lastD macd3.2.1
        macd_histogram := lastD macd3.2.2
        macd_crossover := mc
        ema_short := lastD ema_s
        ema_long := lastD ema_l
        ema_crossover := ec
        price_vs_ema := pve
        volume_ratio := vr
        volume_spike := spike
        current_price := current_price
        price_change_percent := price_change
        bias := bs.1
        strength := bs.2 }

/-! ## Signal aggregator and ranking (`src/analysis/signals.py`) -/

/-- Embedding of the dataclass `AggregatedSignal` (timestamp omitted:
it is `datetime.now()` metadata that no computation reads). -/
structure AggregatedSignal where
  symbol : String
  signal_type : Direction
  strength : StrengthCat
  total_score : ℚ
  technical_signal : Option TechnicalSignal
  funding_signal : Option FundingSignal
  liquidation_signal : Option LiquidationSignal
  technical_score : ℚ
  funding_score : ℚ
  liquidation_score : ℚ
  confluence_count : ℕ
  confluence_bonus : ℚ
  timeframe : String
  reasons : List Reason
deriving DecidableEq

/-- Embedding of `calculate_signal_strength`. -/
def calculate_signal_strength (score : ℚ) : StrengthCat :=
  if 17/2 ≤ score then StrengthCat.very_strong
  else if 7 ≤ score then StrengthCat.strong
  else if 5 ≤ score then StrengthCat.moderate
  else StrengthCat.weak

/-- `technical.strength * weights['technical']` when the technical lens is
present and non-neutral, else `0`. -/
def techContribution (technical : Option TechnicalSignal) (w : ℚ) : ℚ :=
  match technical with
  | some t => if t.bias ≠ Direction.neutral then t.strength * w else 0
  | Option.none => 0

/-- `funding.score * weights['funding']` when present and non-neutral. -/
def fundContribution (funding : Option FundingSignal) (w : ℚ) : ℚ :=
  match funding with
  | some f => if f.signal ≠ Direction.neutral then f.score * w else 0
  | Option.none => 0

/-- `liquidation.score * weights['liquidation']` when present and
non-neutral. -/
def liqContribution (liquidation : Option LiquidationSignal) (w : ℚ) : ℚ :=
  match liquidation with
  | some l => if l.signal ≠ Direction.neutral then l.score * w else 0
  | Option.none => 0

/-- The direction a present lens votes for (`neutral` when absent). -/
def techDir (technical : Option TechnicalSignal) : Direction :=
  match technical with
  | some t => t.bias
  | Option.none => Direction.neutral

/-- The direction the funding lens votes for. -/
def fundDir (funding : Option FundingSignal) : Direction :=
  match funding with
  | some f => f.signal
  | Option.none => Direction.neutral

/-- The direction the liquidation lens votes for. -/
def liqDir (liquidation : Option LiquidationSignal) : Direction :=
  match liquidation with
  | some l => l.signal
  | Option.none => Direction.neutral

/-- The running `long_score` after the three lens blocks. -/
def agg_long_score (technical : Option TechnicalSignal)
    (funding : Option FundingSignal) (liquidation : Option LiquidationSignal)
    (wt wf wl : ℚ) : ℚ :=
  (if techDir technical = Direction.long then techContribution technical wt else 0) +
  (if fundDir funding = Direction.long then fundContribution funding wf else 0) +
  (if liqDir liquidation = Direction.long then liqContribution liquidation wl else 0)

/-- The running `short_score` after the three lens blocks. -/
def agg_short_score (technical : Option TechnicalSignal)
    (funding : Option FundingSignal) (liquidation : Option LiquidationSignal)
    (wt wf wl : ℚ) : ℚ :=
  (if techDir technical = Direction.short then techContribution technical wt else 0) +
  (if fundDir funding = Direction.short then fundContribution funding wf else 0) +
  (if liqDir liquidation = Direction.short then liqContribution liquidation wl else 0)

/-- `signals_agreeing_long`. -/
def agg_count_long (technical : Option TechnicalSignal)
    (funding : Option FundingSignal) (liquidation : Option LiquidationSignal) : ℕ :=
  (if techDir technical = Direction.long then 1 else 0) +
  (if fundDir funding = Direction.long then 1 else 0) +
  (if liqDir liquidation = Direction.long then 1 else 0)

/-- `signals_agreeing_short`. -/
def agg_count_short (technical : Option TechnicalSignal)
    (funding : Option FundingSignal) (liquidation : Option LiquidationSignal) : ℕ :=
  (if techDir technical = Direction.short then 1 else 0) +
  (if fundDir funding = Direction.short then 1 else 0) +
  (if liqDir liquidation = Direction.short then 1 else 0)

/-- The per-lens reason strings, in evaluation order (technical, funding,
liquidation), abstracted to tags. -/
def lensReasons (technical : Option TechnicalSignal)
    (funding : Option FundingSignal) (liquidation : Option LiquidationSignal) :
    List Reason :=
  (if techDir technical = Direction.long then [Reason.technicalLong]
   else if techDir technical = Direction.short then [Reason.technicalShort]
   else []) ++
  (if fundDir funding = Direction.long then [Reason.fundingLong]
   else if fundDir funding = Direction.short then [Reason.fundingShort]
   else []) ++
  (if liqDir liquidation = Direction.long then [Reason.liquidationLong]
   else if liqDir liquidation = Direction.short then [Reason.liquidationShort]
   else [])

/-- The winning direction: whichever weighted score is strictly larger,
`neutral` on a tie. -/
def agg_signal_type (technical : Option TechnicalSignal)
    (funding : Option FundingSignal) (liquidation : Option LiquidationSignal)
    (wt wf wl : ℚ) : Direction :=
  if agg_short_score technical funding liquidation wt wf wl <
      agg_long_score technical funding liquidation wt wf wl then Direction.long
  else if agg_long_score technical funding liquidation wt wf wl <
      agg_short_score technical funding liquidation wt wf wl then Direction.short
  else Direction.neutral

/-- `base_score`: the winning side's weighted score, `0` on a tie. -/
def agg_base_score (technical : Option TechnicalSignal)
    (funding : Option FundingSignal) (liquidation : Option LiquidationSignal)
    (wt wf wl : ℚ) : ℚ :=
  if agg_short_score technical funding liquidation wt wf wl <
      agg_long_score technical funding liquidation wt wf wl then
    agg_long_score technical funding liquidation wt wf wl
  else if agg_long_score technical funding liquidation wt wf wl <
      agg_short_score technical funding liquidation wt wf wl then
    agg_short_score technical funding liquidation wt wf wl
  else 0

/-- `confluence_count`: the winning side's agreement counter, `0` on a tie. -/
def agg_confluence_count (technical : Option TechnicalSignal)
    (funding : Option FundingSignal) (liquidation : Option LiquidationSignal)
    (wt wf wl : ℚ) : ℕ :=
  if agg_short_score technical funding liquidation wt wf wl <
      agg_long_score technical funding liquidation wt wf wl then
    agg_count_long technical funding liquidation
  else if agg_long_score technical funding liquidation wt wf wl <
      agg_short_score technical funding liquidation wt wf wl then
    agg_count_short technical funding liquidation
  else 0

/-- The confluence bonus schedule of `aggregate_signals`. -/
def confluenceBonus (cc : ℕ) : ℚ :=
  if 3 ≤ cc then 3/2 else if cc = 2 then 3/4 else 0

/-- The confluence reason appended alongside the bonus. -/
def confluenceReasons (cc : ℕ) : List Reason :=
  if 3 ≤ cc then [Reason.allThreeAgree]
  else if cc = 2 then [Reason.twoAgree]
  else []

/-- `min(base_score + confluence_bonus, 10)`: the capped score before the
final one-decimal rounding; `calculate_signal_strength` reads this value. -/
def agg_total_unrounded (technical : Option TechnicalSignal)
    (funding : Option FundingSignal) (liquidation : Option LiquidationSignal)
    (wt wf wl : ℚ) : ℚ :=
  min (agg_base_score technical funding liquidation wt wf wl +
    confluenceBonus (agg_confluence_count technical funding liquidation wt wf wl)) 10

/-- Embedding of `aggregate_signals`, assembled from the named pieces above
(each piece is one code block of the source function). -/
def aggregate_signals (symbol timeframe : String)
    (technical : Option TechnicalSignal) (funding : Option FundingSignal)
    (liquidation : Option LiquidationSignal) (wt wf wl : ℚ) :
    AggregatedSignal :=
  let cc := agg_confluence_count technical funding liquidation wt wf wl
  { symbol := symbol
    signal_type := agg_signal_type technical funding liquidation wt wf wl
    strength := calculate_signal_strength
      (agg_total_unrounded technical funding liquidation wt wf wl)
    total_score := round1 (agg_total_unrounded technical funding liquidation wt wf wl)
    technical_signal := technical
    funding_signal := funding
    liquidation_signal := liquidation
    technical_score := round1 (techContribution technical wt)
    funding_score := round1 (fundContribution funding wf)
    liquidation_score := round1 (liqContribution liquidation wl)
    confluence_count := cc
    confluence_bonus := confluenceBonus cc
    timeframe := timeframe
    reasons := lensReasons technical funding liquidation ++ confluenceReasons cc }

/-- The guard `if signal_types and signal.signal_type not in signal_types:
continue` of `filter_signals`: an empty Python list is falsy, so
`signal_types = some []` disables the type filter. -/
def typeFilterPass (signal_types : Option (List Direction)) (d : Direction) :
    Bool :=
  match signal_types with
  | Option.none => true
  | some ts => if ts ≠ [] ∧ d ∉ ts then false else true

/-- The keep-predicate of `filter_signals`: neutral signals are dropped,
scores below `min_score` are dropped, and a signal whose type fails the
truthy type-list guard is dropped. -/
def filter_keep (min_score : ℚ) (signal_types : Option (List Direction))
    (s : AggregatedSignal) : Bool :=
  if s.signal_type = Direction.neutral then false
  else if s.total_score < min_score then false
  else typeFilterPass signal_types s.signal_type

/-- Descending order on `total_score`, the sort key of `filter_signals`. -/
def scoreGE (a b : AggregatedSignal) : Prop :=
  b.total_score ≤ a.total_score

instance : DecidableRel scoreGE :=
  fun a b => inferInstanceAs (Decidable (b.total_score ≤ a.total_score))

instance : IsTotal AggregatedSignal scoreGE :=
  ⟨fun a b => le_total b.total_score a.total_score⟩

instance : IsTrans AggregatedSignal scoreGE :=
  ⟨fun _ _ _ hab hbc => le_trans hbc hab⟩

/-- Embedding of `filter_signals`: keep the qualifying signals and return
them sorted descending by `total_score` (Python uses the built-in stable
sort; the embedding uses insertion sort with the same descending key). -/
def filter_signals (signals : List AggregatedSignal) (min_score : ℚ)
    (signal_types : Option (List Direction)) : List AggregatedSignal :=
  List.insertionSort scoreGE (signals.filter (filter_keep min_score signal_types))

/-! Concrete fixture signals used to instantiate the aggregator and
filtering theorems on specific inputs. -/

/-- A long-biased technical signal of the given strength (the indicator
fields are arbitrary: `aggregate_signals` reads only `bias` and
`strength`). -/
def sampleTech (st : ℚ) : TechnicalSignal :=
  { symbol := "BTCUSDT"
    timeframe := "1h"
    rsi := some 25
    rsi_signal := RsiClass.neutral
    macd := 0
    macd_signal := 0
    macd_histogram := 0
    macd_crossover := Crossover.none
    ema_short := 0
    ema_long := 0
    ema_crossover := Crossover.none
    price_vs_ema := 0
    volume_ratio := 1
    volume_spike := false
    current_price := 0
    price_change_percent := 0
    bias := Direction.long
    strength := st }

/-- A long funding signal of the given score. -/
def sampleFund (sc : ℚ) : FundingSignal :=
  { symbol := "BTCUSDT"
    funding_rate := -(1/10)
    funding_rate_raw := -(1/1000)
    signal := Direction.long
    intensity := Intensity.extreme
    score := sc }

/-- A long aggregated signal of the given total score (used to probe
`filter_signals`). -/
def sampleAgg (sc : ℚ) : AggregatedSignal :=
  { symbol := "BTCUSDT"
    signal_type := Direction.long
    strength := calculate_signal_strength sc
    total_score := sc
    technical_signal := Option.none
    funding_signal := Option.none
    liquidation_signal := Option.none
    technical_score := 0
    funding_score := 0
    liquidation_score := 0
    confluence_count := 1
    confluence_bonus := 0
    timeframe := "1h"
    reasons := [Reason.technicalLong] }

/-! ## Theorems -/

/-! Constructor disequalities used by the proofs below. -/

@[simp] theorem direction_long_ne_short : Direction.long ≠ Direction.short := by decide
@[simp] theorem direction_long_ne_neutral : Direction.long ≠ Direction.neutral := by decide
@[simp] theorem direction_short_ne_long : Direction.short ≠ Direction.long := by decide
@[simp] theorem direction_short_ne_neutral : Direction.short ≠ Direction.neutral := by decide
@[simp] theorem direction_neutral_ne_long : Direction.neutral ≠ Direction.long := by decide
@[simp] theorem direction_neutral_ne_short : Direction.neutral ≠ Direction.short := by decide
@[simp] theorem crossover_none_ne_bullish : Crossover.none ≠ Crossover.bullish := by decide
@[simp] theorem crossover_none_ne_bearish : Crossover.none ≠ Crossover.bearish := by decide
@[simp] theorem crossover_bullish_ne_bearish : Crossover.bullish ≠ Crossover.bearish := by decide
@[simp] theorem crossover_bearish_ne_bullish : Crossover.bearish ≠ Crossover.bullish := by decide
@[simp] theorem crossover_bullish_ne_none : Crossover.bullish ≠ Crossover.none := by decide
@[simp] theorem crossover_bearish_ne_none : Crossover.bearish ≠ Crossover.none := by decide
@[simp] theorem rsiclass_oversold_ne_overbought : RsiClass.oversold ≠ RsiClass.overbought := by decide
@[simp] theorem rsiclass_overbought_ne_oversold : RsiClass.overbought ≠ RsiClass.oversold := by decide
@[simp] theorem rsiclass_neutral_ne_oversold : RsiClass.neutral ≠ RsiClass.oversold := by decide
@[simp] theorem rsiclass_neutral_ne_overbought : RsiClass.neutral ≠ RsiClass.overbought := by decide
@[simp] theorem strengthcat_strong_ne_very_strong : StrengthCat.strong ≠ StrengthCat.very_strong := by decide

/-- C1 (counterexample): the claim asserts that input rate `0.03` yields
signal `neutral` with score `0`; at the default thresholds the cascade of
`analyze_funding_rate` instead reaches the `rate > 0.01` branch and returns
signal `short`, intensity `moderate`, score `2`. -/
theorem claim1_counterexample :
    (fundingDefault (3/100)).signal = Direction.short ∧
    (fundingDefault (3/100)).signal ≠ Direction.neutral ∧
    (fundingDefault (3/100)).score = 2 := by
  have hs : (fundingDefault (3/100)).signal = Direction.short := by
    norm_num [fundingDefault, analyze_funding_rate, defaultExtremePositive,
      defaultExtremeNegative, defaultHighPositive, defaultHighNegative]
  refine ⟨hs, ?_, ?_⟩
  · rw [hs]
    intro hc
    exact Direction.noConfusion hc
  · norm_num [fundingDefault, analyze_funding_rate, defaultExtremePositive,
      defaultExtremeNegative, defaultHighPositive, defaultHighNegative, round1,
      round_eq, min_def, abs]

/-- C1 (amended): with `extreme_negative_threshold = -0.1` and the default
remaining thresholds, rate `-0.1` yields `long`/`extreme`/score `5`,
rate `-0.2` yields score `10` (capped), and rate `0.03` yields `short`
with intensity `moderate` and score `2` (the `rate > 0.01` branch). -/
theorem claim1_funding_examples :
    (fundingDefault (-(1/10))).signal = Direction.long ∧
    (fundingDefault (-(1/10))).intensity = Intensity.extreme ∧
    (fundingDefault (-(1/10))).score = 5 ∧
    (fundingDefault (-(1/5))).score = 10 ∧
    (fundingDefault (3/100)).signal = Direction.short ∧
    (fundingDefault (3/100)).intensity = Intensity.moderate ∧
    (fundingDefault (3/100)).score = 2 := by
  refine ⟨?_, ?_, ?_, ?_, ?_, ?_, ?_⟩ <;>
    norm_num [fundingDefault, analyze_funding_rate, defaultExtremePositive,
      defaultExtremeNegative, defaultHighPositive, defaultHighNegative, round1,
      round_eq, min_def, abs]

end CryptoAnalyzer

namespace CryptoAnalyzer

/-- C6: for every long/short liquidation USD pair with significance
threshold `T` (nonnegative totals, positive threshold): when `long ≥ T` and
`long > 1.5 × short`, `analyze_liquidations` returns signal `long` with
score `min(long/T, 5) + min(long/max(short,1) − 1, 5)` capped at `10`
(and rounded to one decimal at construction); symmetrically for `short`. -/
theorem claim6_liquidation_dominance (symbol : String) (l s T : ℚ) :
    (0 ≤ s → 0 < T → T ≤ l → s * (3/2) < l →
      (analyze_liquidations symbol l s T).signal = Direction.long ∧
      (analyze_liquidations symbol l s T).score =
        round1 (min (min (l / T) 5 + min (l / max s 1 - 1) 5) 10)) ∧
    (0 ≤ l → 0 < T → T ≤ s → l * (3/2) < s →
      (analyze_liquidations symbol l s T).signal = Direction.short ∧
      (analyze_liquidations symbol l s T).score =
        round1 (min (min (s / T) 5 + min (s / max l 1 - 1) 5) 10)) := by
  constructor
  · intro hs hT hl hdom
    have h1 : ¬ (l + s < T / 2) := by linarith
    have h2 : T ≤ l ∧ s * (3/2) < l := ⟨hl, hdom⟩
    simp only [analyze_liquidations, if_neg h1, if_pos h2]
    exact ⟨trivial, trivial⟩
  · intro hl hT hs hdom
    have h1 : ¬ (l + s < T / 2) := by linarith
    have h2 : ¬ (T ≤ l ∧ s * (3/2) < l) := by
      rintro ⟨hc1, hc2⟩
      linarith
    have h3 : T ≤ s ∧ l * (3/2) < s := ⟨hs, hdom⟩
    simp only [analyze_liquidations, if_neg h1, if_neg h2, if_pos h3]
    exact ⟨trivial, trivial⟩

/-- C6 witness: with `threshold_usd = 1,000,000`, `long = 2,000,000` and
`short = 200,000` the hypotheses hold and the classifier answers `long`
with score exactly `7`. -/
theorem claim6_witness :
    (0:ℚ) ≤ 200000 ∧ (0:ℚ) < 1000000 ∧ (1000000:ℚ) ≤ 2000000 ∧
    (200000:ℚ) * (3/2) < 2000000 ∧
    (analyze_liquidations "BTCUSDT" 2000000 200000 1000000).signal =
      Direction.long ∧
    (analyze_liquidations "BTCUSDT" 2000000 200000 1000000).score = 7 := by
  have h := (claim6_liquidation_dominance "BTCUSDT" 2000000 200000 1000000).1
    (by norm_num) (by norm_num) (by norm_num) (by norm_num)
  refine ⟨by norm_num, by norm_num, by norm_num, by norm_num, h.1, ?_⟩
  rw [h.2]
  norm_num [round1, round_eq, min_def, max_def]

end CryptoAnalyzer

namespace CryptoAnalyzer

/-- C2 (counterexample): at the claim's inputs (RSI 25 oversold against
threshold 30, no crossovers, positive histogram, `price_vs_ema = 0`, no
volume spike) `calculate_bias` returns strength `2.7`, not the claimed
`2.2`: the no-crossover histogram rule adds a further `0.5` to the long
score, which the claim's arithmetic omits. -/
theorem claim2_counterexample :
    (calculate_bias RsiClass.oversold 25 Crossover.none 1 Crossover.none 0
      false 30 70).2 = 27/10 ∧
    (calculate_bias RsiClass.oversold 25 Crossover.none 1 Crossover.none 0
      false 30 70).2 ≠ 11/5 := by
  have hb : bias_scores RsiClass.oversold 25 Crossover.none 1 Crossover.none 0
      false 30 70 = (8/3, 0) := by
    norm_num [bias_scores, min_def]
  have hc : (calculate_bias RsiClass.oversold 25 Crossover.none 1
      Crossover.none 0 false 30 70).2 = 27/10 := by
    norm_num [calculate_bias, hb, round1, round_eq, min_def]
  refine ⟨hc, ?_⟩
  rw [hc]
  norm_num

/-- C2 (amended): with RSI 25 oversold (threshold 30), no MACD or EMA
crossover, any positive MACD histogram, `price_vs_ema = 0` and no volume
spike, the accumulated scores are `long = 2 + min(5/30, 1) + 0.5 = 8/3`
and `short = 0`, and `calculate_bias` returns bias `long` with strength
`round(8/3, 1) = 2.7`. -/
theorem claim2_bias_example (h : ℚ) (hh : 0 < h) :
    bias_scores RsiClass.oversold 25 Crossover.none h Crossover.none 0
      false 30 70 = (8/3, 0) ∧
    calculate_bias RsiClass.oversold 25 Crossover.none h Crossover.none 0
      false 30 70 = (Direction.long, 27/10) := by
  have hn : ¬ h < 0 := lt_asymm hh
  have hb : bias_scores RsiClass.oversold 25 Crossover.none h Crossover.none 0
      false 30 70 = (8/3, 0) := by
    norm_num [bias_scores, hh, hn, min_def]
  refine ⟨hb, ?_⟩
  norm_num [calculate_bias, hb, round1, round_eq, min_def]

/-- C2 witness: the amended statement instantiated at histogram `1`. -/
theorem claim2_witness :
    (0:ℚ) < 1 ∧
    calculate_bias RsiClass.oversold 25 Crossover.none 1 Crossover.none 0
      false 30 70 = (Direction.long, 27/10) :=
  ⟨by norm_num, (claim2_bias_example 1 (by norm_num)).2⟩

/-- C3: for every input combination, `calculate_bias` answers `long` iff
`long_score > short_score + 1`, `short` iff `short_score > long_score + 1`,
`neutral` (with strength exactly `0`) when neither margin holds, and a
directional answer carries the winning side's accumulated score capped at
`10` and rounded to one decimal. -/
theorem claim3_bias_decision (rc : RsiClass) (rv : ℚ) (mc : Crossover)
    (hist : ℚ) (ec : Crossover) (pve : ℚ) (spike : Bool) (os ob : ℚ) :
    ((calculate_bias rc rv mc hist ec pve spike os ob).1 = Direction.long ↔
      (bias_scores rc rv mc hist ec pve spike os ob).2 + 1 <
        (bias_scores rc rv mc hist ec pve spike os ob).1) ∧
    ((calculate_bias rc rv mc hist ec pve spike os ob).1 = Direction.short ↔
      (bias_scores rc rv mc hist ec pve spike os ob).1 + 1 <
        (bias_scores rc rv mc hist ec pve spike os ob).2) ∧
    ((calculate_bias rc rv mc hist ec pve spike os ob).1 = Direction.neutral →
      (calculate_bias rc rv mc hist ec pve spike os ob).2 = 0) ∧
    (¬ (bias_scores rc rv mc hist ec pve spike os ob).2 + 1 <
        (bias_scores rc rv mc hist ec pve spike os ob).1 →
     ¬ (bias_scores rc rv mc hist ec pve spike os ob).1 + 1 <
        (bias_scores rc rv mc hist ec pve spike os ob).2 →
      (calculate_bias rc rv mc hist ec pve spike os ob).1 = Direction.neutral) ∧
    ((calculate_bias rc rv mc hist ec pve spike os ob).1 = Direction.long →
      (calculate_bias rc rv mc hist ec pve spike os ob).2 =
        round1 (min (bias_scores rc rv mc hist ec pve spike os ob).1 10)) ∧
    ((calculate_bias rc rv mc hist ec pve spike os ob).1 = Direction.short →
      (calculate_bias rc rv mc hist ec pve spike os ob).2 =
        round1 (min (bias_scores rc rv mc hist ec pve spike os ob).2 10)) := by
  have hr0 : round1 0 = 0 := by norm_num [round1, round_eq]
  simp only [calculate_bias]
  split_ifs with h1 h2
  · refine ⟨by simp [h1], ?_, ?_, ?_, by intro _; rfl, ?_⟩
    · constructor
      · intro hc
        simp at hc
      · intro hlt
        exfalso
        linarith
    · intro hc
      simp at hc
    · intro hA _
      exact absurd h1 hA
    · intro hc
      simp at hc
  · refine ⟨?_, by simp [h2], ?_, ?_, ?_, by intro _; rfl⟩
    · constructor
      · intro hc
        simp at hc
      · intro hlt
        exfalso
        linarith
    · intro hc
      simp at hc
    · intro _ hB
      exact absurd h2 hB
    · intro hc
      simp at hc
  · refine ⟨by simp [h1], by simp [h2], by intro _; exact hr0,
      by intro _ _; rfl, ?_, ?_⟩
    · intro hc
      simp at hc
    · intro hc
      simp at hc

/-- C3 witness: at RSI 25 oversold with a positive histogram the margin
condition holds, the bias is `long`, and the strength is the capped and
rounded long score. -/
theorem claim3_witness :
    (bias_scores RsiClass.oversold 25 Crossover.none 1 Crossover.none 0
        false 30 70).2 + 1 <
      (bias_scores RsiClass.oversold 25 Crossover.none 1 Crossover.none 0
        false 30 70).1 ∧
    (calculate_bias RsiClass.oversold 25 Crossover.none 1 Crossover.none 0
      false 30 70).1 = Direction.long ∧
    (calculate_bias RsiClass.oversold 25 Crossover.none 1 Crossover.none 0
      false 30 70).2 =
      round1 (min (bias_scores RsiClass.oversold 25 Crossover.none 1
        Crossover.none 0 false 30 70).1 10) := by
  have hlt : (bias_scores RsiClass.oversold 25 Crossover.none 1 Crossover.none
      0 false 30 70).2 + 1 <
      (bias_scores RsiClass.oversold 25 Crossover.none 1 Crossover.none 0
        false 30 70).1 := by
    norm_num [bias_scores, min_def]
  have h := claim3_bias_decision RsiClass.oversold 25 Crossover.none 1
    Crossover.none 0 false 30 70
  have hl := h.1.mpr hlt
  exact ⟨hlt, hl, h.2.2.2.2.1 hl⟩

end CryptoAnalyzer

namespace CryptoAnalyzer

/-- C10: both crossover detectors use strict sign comparisons — whenever
the difference at the second-to-last or at the last bar is exactly `0` the
answer is `none`, and whenever either series has fewer than two entries the
answer is `none`. -/
theorem claim10_crossover_strict (a b : List ℚ) :
    ((a.length < 2 ∨ b.length < 2) →
      detect_macd_crossover a b = Crossover.none ∧
      detect_ema_crossover a b = Crossover.none) ∧
    ((prevCurrDiff a b).1 = 0 ∨ (prevCurrDiff a b).2 = 0 →
      detect_macd_crossover a b = Crossover.none ∧
      detect_ema_crossover a b = Crossover.none) := by
  constructor
  · intro h
    constructor <;> simp [detect_macd_crossover, detect_ema_crossover, h]
  · intro h
    by_cases hlen : a.length < 2 ∨ b.length < 2
    · constructor <;> simp [detect_macd_crossover, detect_ema_crossover, hlen]
    · have hno1 : ¬ ((prevCurrDiff a b).1 < 0 ∧ 0 < (prevCurrDiff a b).2) := by
        rcases h with h0 | h0 <;> simp [h0]
      have hno2 : ¬ (0 < (prevCurrDiff a b).1 ∧ (prevCurrDiff a b).2 < 0) := by
        rcases h with h0 | h0 <;> simp [h0]
      constructor <;>
        simp only [detect_macd_crossover, detect_ema_crossover, if_neg hlen,
          if_neg hno1, if_neg hno2]

/-- C10 witness: a pair whose previous-bar difference is exactly `0` yields
`none` from both detectors, and a one-element series also yields `none`. -/
theorem claim10_witness :
    (prevCurrDiff [(1:ℚ), 2] [1, 3]).1 = 0 ∧
    ([(1:ℚ)].length < 2 ∨ ([] : List ℚ).length < 2) ∧
    detect_macd_crossover [(1:ℚ), 2] [1, 3] = Crossover.none ∧
    detect_ema_crossover [(1:ℚ), 2] [1, 3] = Crossover.none ∧
    detect_macd_crossover [(1:ℚ)] [] = Crossover.none ∧
    detect_ema_crossover [(1:ℚ)] [] = Crossover.none := by
  have h0 : (prevCurrDiff [(1:ℚ), 2] [1, 3]).1 = 0 := by
    norm_num [prevCurrDiff]
  have hlen : ([(1:ℚ)].length < 2 ∨ ([] : List ℚ).length < 2) := by
    norm_num
  have ha := (claim10_crossover_strict [(1:ℚ), 2] [1, 3]).2 (Or.inl h0)
  have hb := (claim10_crossover_strict [(1:ℚ)] []).1 hlen
  exact ⟨h0, hlen, ha.1, ha.2, hb.1, hb.2⟩

end CryptoAnalyzer

namespace CryptoAnalyzer

/-- C5: the winning direction of `aggregate_signals` is the strictly larger
weighted score; a tie (including all-zero) yields `signal_type = neutral`
with `confluence_count = 0`, bonus `0` and `total_score = 0`; and a neutral
outcome always has `total_score = 0`. -/
theorem claim5_aggregator_tie (symbol timeframe : String) (t : Option TechnicalSignal)
    (f : Option FundingSignal) (l : Option LiquidationSignal) (wt wf wl : ℚ) :
    (agg_short_score t f l wt wf wl < agg_long_score t f l wt wf wl →
      (aggregate_signals symbol timeframe t f l wt wf wl).signal_type =
        Direction.long) ∧
    (agg_long_score t f l wt wf wl < agg_short_score t f l wt wf wl →
      (aggregate_signals symbol timeframe t f l wt wf wl).signal_type =
        Direction.short) ∧
    (agg_long_score t f l wt wf wl = agg_short_score t f l wt wf wl →
      (aggregate_signals symbol timeframe t f l wt wf wl).signal_type =
        Direction.neutral ∧
      (aggregate_signals symbol timeframe t f l wt wf wl).confluence_count = 0 ∧
      (aggregate_signals symbol timeframe t f l wt wf wl).confluence_bonus = 0 ∧
      (aggregate_signals symbol timeframe t f l wt wf wl).total_score = 0) ∧
    ((aggregate_signals symbol timeframe t f l wt wf wl).signal_type =
        Direction.neutral →
      (aggregate_signals symbol timeframe t f l wt wf wl).total_score = 0) := by
  have hr0 : round1 0 = 0 := by norm_num [round1, round_eq]
  have key : agg_long_score t f l wt wf wl = agg_short_score t f l wt wf wl →
      (aggregate_signals symbol timeframe t f l wt wf wl).signal_type =
        Direction.neutral ∧
      (aggregate_signals symbol timeframe t f l wt wf wl).confluence_count = 0 ∧
      (aggregate_signals symbol timeframe t f l wt wf wl).confluence_bonus = 0 ∧
      (aggregate_signals symbol timeframe t f l wt wf wl).total_score = 0 := by
    intro heq
    have h1 : ¬ agg_short_score t f l wt wf wl < agg_long_score t f l wt wf wl := by
      rw [heq]
      exact lt_irrefl _
    have h2 : ¬ agg_long_score t f l wt wf wl < agg_short_score t f l wt wf wl := by
      rw [heq]
      exact lt_irrefl _
    have hcc : agg_confluence_count t f l wt wf wl = 0 := by
      simp [agg_confluence_count, h1, h2]
    refine ⟨?_, ?_, ?_, ?_⟩
    · simp [aggregate_signals, agg_signal_type, h1, h2]
    · simp [aggregate_signals, hcc]
    · simp [aggregate_signals, hcc, confluenceBonus]
    · have hu : agg_total_unrounded t f l wt wf wl = 0 := by
        simp [agg_total_unrounded, agg_base_score, hcc, confluenceBonus, h1, h2]
      simp [aggregate_signals, hu, hr0]
  refine ⟨?_, ?_, key, ?_⟩
  · intro h
    simp [aggregate_signals, agg_signal_type, h]
  · intro h
    have hn : ¬ agg_short_score t f l wt wf wl < agg_long_score t f l wt wf wl :=
      lt_asymm h
    simp [aggregate_signals, agg_signal_type, h, hn]
  · intro hneut
    rcases lt_trichotomy (agg_long_score t f l wt wf wl)
      (agg_short_score t f l wt wf wl) with hlt | heq | hgt
    · exfalso
      have hn : ¬ agg_short_score t f l wt wf wl < agg_long_score t f l wt wf wl :=
        lt_asymm hlt
      simp [aggregate_signals, agg_signal_type, hlt, hn] at hneut
    · exact (key heq).2.2.2
    · exfalso
      simp [aggregate_signals, agg_signal_type, hgt] at hneut

/-- C5 witness: with all three lenses absent the weighted scores tie and
the aggregate is neutral with total score `0`. -/
theorem claim5_witness :
    agg_long_score Option.none Option.none Option.none (1/2) (3/10) (1/5) =
      agg_short_score Option.none Option.none Option.none (1/2) (3/10) (1/5) ∧
    (aggregate_signals "BTCUSDT" "1h" Option.none Option.none Option.none
      (1/2) (3/10) (1/5)).signal_type = Direction.neutral ∧
    (aggregate_signals "BTCUSDT" "1h" Option.none Option.none Option.none
      (1/2) (3/10) (1/5)).total_score = 0 := by
  have heq : agg_long_score Option.none Option.none Option.none (1/2) (3/10) (1/5) =
      agg_short_score Option.none Option.none Option.none (1/2) (3/10) (1/5) := by
    simp [agg_long_score, agg_short_score, techDir, fundDir, liqDir]
  have h := (claim5_aggregator_tie "BTCUSDT" "1h" Option.none Option.none Option.none
    (1/2) (3/10) (1/5)).2.2.1 heq
  exact ⟨heq, h.1, h.2.2.2⟩

end CryptoAnalyzer

namespace CryptoAnalyzer

/-- C4 (amended): the confluence bonus of `aggregate_signals` is `1.5` for
an agreement count of `3` (with the all-three-agree reason appended),
`0.75` for exactly `2`, and `0` for `0` or `1`; `total_score` is
`min(base_score + bonus, 10)` rounded to one decimal; and the strength
category thresholds (`8.5 / 7 / 5`) are applied to the capped but
*unrounded* score `min(base_score + bonus, 10)`. -/
theorem claim4_confluence_and_strength (symbol timeframe : String) (t : Option TechnicalSignal)
    (f : Option FundingSignal) (l : Option LiquidationSignal) (wt wf wl : ℚ) :
    ((aggregate_signals symbol timeframe t f l wt wf wl).confluence_count = 3 →
      (aggregate_signals symbol timeframe t f l wt wf wl).confluence_bonus = 3/2 ∧
      Reason.allThreeAgree ∈ (aggregate_signals symbol timeframe t f l wt wf wl).reasons) ∧
    ((aggregate_signals symbol timeframe t f l wt wf wl).confluence_count = 2 →
      (aggregate_signals symbol timeframe t f l wt wf wl).confluence_bonus = 3/4) ∧
    ((aggregate_signals symbol timeframe t f l wt wf wl).confluence_count = 0 ∨
        (aggregate_signals symbol timeframe t f l wt wf wl).confluence_count = 1 →
      (aggregate_signals symbol timeframe t f l wt wf wl).confluence_bonus = 0) ∧
    (aggregate_signals symbol timeframe t f l wt wf wl).total_score =
      round1 (min (agg_base_score t f l wt wf wl +
        (aggregate_signals symbol timeframe t f l wt wf wl).confluence_bonus) 10) ∧
    (17/2 ≤ agg_total_unrounded t f l wt wf wl →
      (aggregate_signals symbol timeframe t f l wt wf wl).strength =
        StrengthCat.very_strong) ∧
    (7 ≤ agg_total_unrounded t f l wt wf wl →
      agg_total_unrounded t f l wt wf wl < 17/2 →
      (aggregate_signals symbol timeframe t f l wt wf wl).strength =
        StrengthCat.strong) ∧
    (5 ≤ agg_total_unrounded t f l wt wf wl →
      agg_total_unrounded t f l wt wf wl < 7 →
      (aggregate_signals symbol timeframe t f l wt wf wl).strength =
        StrengthCat.moderate) ∧
    (agg_total_unrounded t f l wt wf wl < 5 →
      (aggregate_signals symbol timeframe t f l wt wf wl).strength =
        StrengthCat.weak) := by
  refine ⟨?_, ?_, ?_, rfl, ?_, ?_, ?_, ?_⟩
  · intro h3
    have h3c : agg_confluence_count t f l wt wf wl = 3 := h3
    constructor
    · show confluenceBonus (agg_confluence_count t f l wt wf wl) = 3/2
      rw [h3c]
      norm_num [confluenceBonus]
    · show Reason.allThreeAgree ∈ lensReasons t f l ++
        confluenceReasons (agg_confluence_count t f l wt wf wl)
      rw [h3c]
      simp [confluenceReasons]
  · intro h2
    have h2c : agg_confluence_count t f l wt wf wl = 2 := h2
    show confluenceBonus (agg_confluence_count t f l wt wf wl) = 3/4
    rw [h2c]
    norm_num [confluenceBonus]
  · intro h01
    rcases h01 with h0 | h1
    · have hc : agg_confluence_count t f l wt wf wl = 0 := h0
      show confluenceBonus (agg_confluence_count t f l wt wf wl) = 0
      rw [hc]
      norm_num [confluenceBonus]
    · have hc : agg_confluence_count t f l wt wf wl = 1 := h1
      show confluenceBonus (agg_confluence_count t f l wt wf wl) = 0
      rw [hc]
      norm_num [confluenceBonus]
  · intro hge
    show calculate_signal_strength (agg_total_unrounded t f l wt wf wl) =
      StrengthCat.very_strong
    simp [calculate_signal_strength, hge]
  · intro hge hlt
    have hn : ¬ 17/2 ≤ agg_total_unrounded t f l wt wf wl := not_le.mpr hlt
    show calculate_signal_strength (agg_total_unrounded t f l wt wf wl) =
      StrengthCat.strong
    simp [calculate_signal_strength, hge, hn]
  · intro hge hlt
    have hn1 : ¬ 17/2 ≤ agg_total_unrounded t f l wt wf wl := by
      apply not_le.mpr
      linarith
    have hn2 : ¬ 7 ≤ agg_total_unrounded t f l wt wf wl := not_le.mpr hlt
    show calculate_signal_strength (agg_total_unrounded t f l wt wf wl) =
      StrengthCat.moderate
    simp [calculate_signal_strength, hge, hn1, hn2]
  · intro hlt
    have hn1 : ¬ 17/2 ≤ agg_total_unrounded t f l wt wf wl := by
      apply not_le.mpr
      linarith
    have hn2 : ¬ 7 ≤ agg_total_unrounded t f l wt wf wl := by
      apply not_le.mpr
      linarith
    have hn3 : ¬ 5 ≤ agg_total_unrounded t f l wt wf wl := not_le.mpr hlt
    show calculate_signal_strength (agg_total_unrounded t f l wt wf wl) =
      StrengthCat.weak
    simp [calculate_signal_strength, hn1, hn2, hn3]

/-- C4 (counterexample): the claim applies the `≥ 8.5` very-strong
threshold to the rounded `total_score`; with a long technical strength of
`9.9` and a long funding score of `9.2` the unrounded capped score is
`8.46`, so `total_score` rounds to `8.5` while the strength category is
computed from `8.46` and is only `strong`. -/
theorem claim4_counterexample :
    (aggregate_signals "BTCUSDT" "1h" (some (sampleTech (99/10)))
      (some (sampleFund (46/5))) Option.none (1/2) (3/10) (1/5)).total_score =
      17/2 ∧
    (aggregate_signals "BTCUSDT" "1h" (some (sampleTech (99/10)))
      (some (sampleFund (46/5))) Option.none (1/2) (3/10) (1/5)).strength =
      StrengthCat.strong ∧
    (aggregate_signals "BTCUSDT" "1h" (some (sampleTech (99/10)))
      (some (sampleFund (46/5))) Option.none (1/2) (3/10) (1/5)).strength ≠
      StrengthCat.very_strong := by
  have h1 : agg_long_score (some (sampleTech (99/10))) (some (sampleFund (46/5)))
      Option.none (1/2) (3/10) (1/5) = 771/100 := by
    norm_num [agg_long_score, techDir, fundDir, liqDir, techContribution,
      fundContribution, liqContribution, sampleTech, sampleFund]
  have h2 : agg_short_score (some (sampleTech (99/10))) (some (sampleFund (46/5)))
      Option.none (1/2) (3/10) (1/5) = 0 := by
    norm_num [agg_short_score, techDir, fundDir, liqDir, techContribution,
      fundContribution, liqContribution, sampleTech, sampleFund]
  have hbase : agg_base_score (some (sampleTech (99/10))) (some (sampleFund (46/5)))
      Option.none (1/2) (3/10) (1/5) = 771/100 := by
    norm_num [agg_base_score, h1, h2]
  have hcc : agg_confluence_count (some (sampleTech (99/10)))
      (some (sampleFund (46/5))) Option.none (1/2) (3/10) (1/5) = 2 := by
    simp only [agg_confluence_count]
    rw [h1, h2]
    norm_num [agg_count_long, techDir, fundDir, liqDir, sampleTech, sampleFund]
  have hu : agg_total_unrounded (some (sampleTech (99/10)))
      (some (sampleFund (46/5))) Option.none (1/2) (3/10) (1/5) = 846/100 := by
    norm_num [agg_total_unrounded, hbase, hcc, confluenceBonus, min_def]
  have htot : (aggregate_signals "BTCUSDT" "1h" (some (sampleTech (99/10)))
      (some (sampleFund (46/5))) Option.none (1/2) (3/10) (1/5)).total_score =
      17/2 := by
    show round1 (agg_total_unrounded (some (sampleTech (99/10)))
      (some (sampleFund (46/5))) Option.none (1/2) (3/10) (1/5)) = 17/2
    rw [hu]
    norm_num [round1, round_eq]
  have hstr : (aggregate_signals "BTCUSDT" "1h" (some (sampleTech (99/10)))
      (some (sampleFund (46/5))) Option.none (1/2) (3/10) (1/5)).strength =
      StrengthCat.strong := by
    show calculate_signal_strength (agg_total_unrounded (some (sampleTech (99/10)))
      (some (sampleFund (46/5))) Option.none (1/2) (3/10) (1/5)) =
      StrengthCat.strong
    rw [hu]
    norm_num [calculate_signal_strength]
  refine ⟨htot, hstr, ?_⟩
  rw [hstr]
  exact strengthcat_strong_ne_very_strong

/-- C4 witness: technical long strength `8` and funding long score `6.2`
give an agreement count of `2` and hence a confluence bonus of `0.75`. -/
theorem claim4_witness :
    (aggregate_signals "BTCUSDT" "1h" (some (sampleTech 8))
      (some (sampleFund (31/5))) Option.none (1/2) (3/10) (1/5)).confluence_count
      = 2 ∧
    (aggregate_signals "BTCUSDT" "1h" (some (sampleTech 8))
      (some (sampleFund (31/5))) Option.none (1/2) (3/10) (1/5)).confluence_bonus
      = 3/4 := by
  have h1 : agg_long_score (some (sampleTech 8)) (some (sampleFund (31/5)))
      Option.none (1/2) (3/10) (1/5) = 586/100 := by
    norm_num [agg_long_score, techDir, fundDir, liqDir, techContribution,
      fundContribution, liqContribution, sampleTech, sampleFund]
  have h2 : agg_short_score (some (sampleTech 8)) (some (sampleFund (31/5)))
      Option.none (1/2) (3/10) (1/5) = 0 := by
    norm_num [agg_short_score, techDir, fundDir, liqDir, techContribution,
      fundContribution, liqContribution, sampleTech, sampleFund]
  have hcc : (aggregate_signals "BTCUSDT" "1h" (some (sampleTech 8))
      (some (sampleFund (31/5))) Option.none (1/2) (3/10) (1/5)).confluence_count
      = 2 := by
    show agg_confluence_count (some (sampleTech 8)) (some (sampleFund (31/5)))
      Option.none (1/2) (3/10) (1/5) = 2
    simp only [agg_confluence_count]
    rw [h1, h2]
    norm_num [agg_count_long, techDir, fundDir, liqDir, sampleTech, sampleFund]
  exact ⟨hcc, (claim4_confluence_and_strength "BTCUSDT" "1h" (some (sampleTech 8))
    (some (sampleFund (31/5))) Option.none (1/2) (3/10) (1/5)).2.1 hcc⟩

end CryptoAnalyzer

namespace CryptoAnalyzer

/-- Decoding of the keep-predicate of `filter_signals`: kept iff
non-neutral, at or above `min_score` (inclusive boundary), and inside
every *non-empty* supplied type list. -/
theorem filter_keep_iff (m : ℚ) (ts : Option (List Direction))
    (s : AggregatedSignal) :
    filter_keep m ts s = true ↔
      s.signal_type ≠ Direction.neutral ∧ m ≤ s.total_score ∧
      (∀ l, ts = some l → l ≠ [] → s.signal_type ∈ l) := by
  cases ts with
  | none =>
      simp only [filter_keep, typeFilterPass]
      split_ifs with h1 h2
      · simp [h1]
      · simp [h1, h2, not_le.mpr h2]
      · simp [h1, not_lt.mp h2]
  | some l =>
      simp only [filter_keep, typeFilterPass]
      split_ifs with h1 h2 h3
      · simp [h1]
      · simp [h1, h2, not_le.mpr h2]
      · rcases h3 with ⟨hne, hnotin⟩
        simp only [false_iff]
        rintro ⟨-, -, hall⟩
        exact hnotin (hall l rfl hne)
      · simp only [true_iff]
        refine ⟨h1, not_lt.mp h2, ?_⟩
        rintro l2 hl2 hne
        injection hl2 with hl2
        subst hl2
        by_contra hnotin
        exact h3 ⟨hne, hnotin⟩

/-- C9 (amended): `filter_signals` keeps exactly the non-neutral signals
with `total_score ≥ min_score` (the boundary is inclusive) whose type
passes the truthy type-list guard — a *non-empty* supplied list restricts
the types, while `some []` disables the filter — and returns them sorted
descending by `total_score`. -/
theorem claim9_filter_contract (signals : List AggregatedSignal) (m : ℚ)
    (ts : Option (List Direction)) :
    (∀ s ∈ filter_signals signals m ts,
        s ∈ signals ∧ s.signal_type ≠ Direction.neutral ∧ m ≤ s.total_score ∧
        (∀ l, ts = some l → l ≠ [] → s.signal_type ∈ l)) ∧
    (∀ s ∈ signals, s.signal_type ≠ Direction.neutral → m ≤ s.total_score →
        (∀ l, ts = some l → l ≠ [] → s.signal_type ∈ l) →
        s ∈ filter_signals signals m ts) ∧
    (filter_signals signals m ts).Sorted scoreGE := by
  have hmem : ∀ s, s ∈ filter_signals signals m ts ↔
      s ∈ signals ∧ filter_keep m ts s = true := by
    intro s
    unfold filter_signals
    rw [List.mem_insertionSort, List.mem_filter]
  refine ⟨?_, ?_, ?_⟩
  · intro s hs
    have h := (hmem s).mp hs
    have hk := (filter_keep_iff m ts s).mp h.2
    exact ⟨h.1, hk.1, hk.2.1, hk.2.2⟩
  · intro s hs h1 h2 h3
    exact (hmem s).mpr ⟨hs, (filter_keep_iff m ts s).mpr ⟨h1, h2, h3⟩⟩
  · unfold filter_signals
    exact List.sorted_insertionSort scoreGE _

/-- C9 (counterexample): with an explicitly supplied *empty* type list the
claim demands that every signal be dropped (no type is allowed), but the
empty list is falsy in Python, so the filter keeps a long signal whose type
is not in the allowed list. -/
theorem claim9_counterexample :
    filter_signals [sampleAgg 8] 0 (some []) = [sampleAgg 8] ∧
    (sampleAgg 8).signal_type ∉ ([] : List Direction) := by
  constructor
  · simp [filter_signals, filter_keep, typeFilterPass, sampleAgg, List.filter,
      List.insertionSort]
  · simp

/-- C9 witness: a long signal whose score exactly equals `min_score = 8`
survives the filter (inclusive boundary). -/
theorem claim9_witness :
    (sampleAgg 8) ∈ [sampleAgg 8] ∧
    (sampleAgg 8).signal_type ≠ Direction.neutral ∧
    (8:ℚ) ≤ (sampleAgg 8).total_score ∧
    (sampleAgg 8) ∈ filter_signals [sampleAgg 8] 8 Option.none := by
  have hmem : (sampleAgg 8) ∈ [sampleAgg 8] := List.mem_singleton.mpr rfl
  have h1 : (sampleAgg 8).signal_type ≠ Direction.neutral := by
    simp [sampleAgg]
  have h2 : (8:ℚ) ≤ (sampleAgg 8).total_score := by
    simp [sampleAgg]
  refine ⟨hmem, h1, h2, ?_⟩
  exact (claim9_filter_contract [sampleAgg 8] 8 Option.none).2.1 (sampleAgg 8) hmem h1 h2
    (by rintro l hl -
        exact absurd hl (by simp))

end CryptoAnalyzer

namespace CryptoAnalyzer

theorem gains_length (closes : List ℚ) : (gains closes).length = closes.length := by
  cases closes with
  | nil => rfl
  | cons c rest =>
      simp [gains]

theorem losses_length (closes : List ℚ) : (losses closes).length = closes.length := by
  cases closes with
  | nil => rfl
  | cons c rest =>
      simp [losses]

theorem rollMean_length (p : ℕ) (l : List ℚ) :
    (rollMean p l).length = l.length := by
  simp [rollMean]

theorem rollMean_of_short (p : ℕ) (l : List ℚ) (h : l.length < p) :
    rollMean p l = List.replicate l.length Option.none := by
  unfold rollMean
  have h1 : ∀ i ∈ List.range l.length,
      (if p ≤ i + 1 then some (((l.drop (i + 1 - p)).take p).sum / (p:ℚ))
       else Option.none) = Option.none := by
    intro i hi
    rw [List.mem_range] at hi
    rw [if_neg]
    omega
  rw [List.map_congr_left h1]
  simp

theorem calculate_rsi_of_short (closes : List ℚ) (p : ℕ)
    (h : closes.length < p) :
    calculate_rsi closes p = List.replicate closes.length Option.none := by
  unfold calculate_rsi
  rw [rollMean_of_short p _ (by rw [gains_length]; exact h),
    rollMean_of_short p _ (by rw [losses_length]; exact h),
    gains_length, losses_length, List.zipWith_replicate]
  simp

theorem replicate_none_getLast?_join (n : ℕ) :
    (List.replicate n (Option.none : Option ℚ)).getLast?.join = Option.none := by
  cases hx : (List.replicate n (Option.none : Option ℚ)).getLast? with
  | none => rfl
  | some y =>
      have hy := List.mem_of_mem_getLast? hx
      rw [List.eq_of_mem_replicate hy]
      rfl

theorem ewmFrom_length (a : ℚ) (prev : ℚ) (l : List ℚ) :
    (ewmFrom a prev l).length = l.length := by
  induction l generalizing prev with
  | nil => rfl
  | cons x rest ih =>
      simp [ewmFrom, ih]

theorem ewmMean_length (span : ℕ) (l : List ℚ) :
    (ewmMean span l).length = l.length := by
  cases l with
  | nil => rfl
  | cons x rest =>
      simp [ewmMean, ewmFrom_length]

/-- C7 (amended): `calculate_rsi` has no numeric last value on a series
shorter than its window (every rolling entry is NaN), and
`analyze_technicals` produces no signal when the series has fewer than
`max(ema_long_period, 26) + 10` bars; but the EMA, the MACD (all three of
its output series) and the volume ratio compute definite numeric values —
one per bar, or one ratio for any nonempty frame — on any series, however
short, without signalling an insufficient-data condition. -/
theorem claim7_insufficient_data :
    (∀ (closes : List ℚ) (p : ℕ), 0 < p → closes.length < p →
      rsi_last closes p = Option.none) ∧
    (∀ (df : List Bar) (symbol timeframe : String) (os ob : ℚ)
        (esp elp : ℕ) (vst : ℚ), df.length < max elp 26 + 10 →
      analyze_technicals df symbol timeframe os ob esp elp vst = Option.none) ∧
    (∀ (span : ℕ) (closes : List ℚ),
      (ewmMean span closes).length = closes.length) ∧
    (∀ (closes : List ℚ) (fast slow signal : ℕ),
      (calculate_macd closes fast slow signal).1.length = closes.length ∧
      (calculate_macd closes fast slow signal).2.1.length = closes.length ∧
      (calculate_macd closes fast slow signal).2.2.length = closes.length) ∧
    (∀ (volumes : List ℚ) (p : ℕ), volumes ≠ [] →
      ∃ r, calculate_volume_ratio volumes p = some r) := by
  refine ⟨?_, ?_, ?_, ?_, ?_⟩
  · intro closes p hp hlen
    unfold rsi_last
    rw [calculate_rsi_of_short closes p hlen]
    exact replicate_none_getLast?_join _
  · intro df symbol timeframe os ob esp elp vst h
    unfold analyze_technicals
    rw [if_pos h]
  · intro span closes
    exact ewmMean_length span closes
  · intro closes fast slow signal
    refine ⟨?_, ?_, ?_⟩ <;>
      simp only [calculate_macd] <;>
      simp [List.length_zipWith, ewmMean_length]
  · intro volumes p hne
    cases hcur : volumes.getLast? with
    | none =>
        rw [List.getLast?_eq_none_iff] at hcur
        exact absurd hcur hne
    | some current =>
        unfold calculate_volume_ratio
        rw [hcur]
        show ∃ r,
          (if 0 < (volumes.drop (volumes.length - p)).sum /
              ((volumes.drop (volumes.length - p)).length : ℚ) then
            some (current / ((volumes.drop (volumes.length - p)).sum /
              ((volumes.drop (volumes.length - p)).length : ℚ)))
          else some 1) = some r
        split_ifs with h
        · exact ⟨_, rfl⟩
        · exact ⟨_, rfl⟩

/-- C7 (counterexample): `calculate_macd` on a 2-bar series — far below
the 26-bar slow window — returns a definite numeric histogram value
(`448/1755`) instead of signalling an insufficient-data condition. -/
theorem claim7_counterexample :
    ([(100:ℚ), 104].length < 26) ∧
    ((calculate_macd [(100:ℚ), 104] 12 26 9).2.2).getLast? = some (448/1755) := by
  constructor
  · norm_num
  · norm_num [calculate_macd, ewmMean, ewmFrom]


/-- C7 witness: a 2-bar series is shorter than the 14-bar RSI window and
has NaN last RSI; an empty frame is below the entry-point guard and yields
no signal; a 1-bar EMA(12) still has one value per bar; MACD(12,26,9) on a
2-bar series emits all three series with one value per bar; and the volume
ratio on a nonempty 1-bar frame returns a value. -/
theorem claim7_witness :
    ((0:ℕ) < 14 ∧ [(100:ℚ), 101].length < 14 ∧
      rsi_last [(100:ℚ), 101] 14 = Option.none) ∧
    (([] : List Bar).length < max 26 26 + 10 ∧
      analyze_technicals [] "BTCUSDT" "1h" 30 70 12 26 2 = Option.none) ∧
    (ewmMean 12 [(100:ℚ)]).length = [(100:ℚ)].length ∧
    (calculate_macd [(100:ℚ), 104] 12 26 9).2.2.length = 2 ∧
    (([(5:ℚ)] : List ℚ) ≠ [] ∧
      ∃ r, calculate_volume_ratio [(5:ℚ)] 20 = some r) := by
  refine ⟨⟨by norm_num, by norm_num, ?_⟩, ⟨by norm_num, ?_⟩, ?_, ?_,
    by norm_num, ?_⟩
  · exact claim7_insufficient_data.1 [(100:ℚ), 101] 14 (by norm_num) (by norm_num)
  · exact claim7_insufficient_data.2.1 [] "BTCUSDT" "1h" 30 70 12 26 2 (by norm_num)
  · exact claim7_insufficient_data.2.2.1 12 [(100:ℚ)]
  · have h := (claim7_insufficient_data.2.2.2.1 [(100:ℚ), 104] 12 26 9).2.2
    simpa using h
  · exact claim7_insufficient_data.2.2.2.2 [(5:ℚ)] 20 (by norm_num)

end CryptoAnalyzer

namespace CryptoAnalyzer

theorem rollMean_getLast? (p : ℕ) (l : List ℚ) (hp : 0 < p)
    (h : p ≤ l.length) :
    (rollMean p l).getLast? =
      some (some (((l.drop (l.length - p)).take p).sum / (p:ℚ))) := by
  obtain ⟨m, hm⟩ : ∃ m, l.length = m + 1 := by
    cases hn : l.length with
    | zero => omega
    | succ k => exact ⟨k, rfl⟩
  unfold rollMean
  rw [hm, List.range_succ, List.map_append]
  simp only [List.map_cons, List.map_nil]
  rw [List.getLast?_concat]
  rw [if_pos (by omega : p ≤ m + 1)]

theorem calculate_rsi_getLast? (closes : List ℚ) (p : ℕ) (hp : 0 < p)
    (hlen : p ≤ closes.length) (g l : ℚ)
    (hg : avg_gain_last closes p = some g)
    (hl : avg_loss_last closes p = some l) :
    rsi_last closes p = rsiPoint g l := by
  obtain ⟨m, hm⟩ : ∃ m, closes.length = m + 1 := by
    cases hn : closes.length with
    | zero => omega
    | succ k => exact ⟨k, rfl⟩
  have hGlen : (gains closes).length = closes.length := gains_length closes
  have hLlen : (losses closes).length = closes.length := losses_length closes
  have hG := rollMean_getLast? p (gains closes) hp (by rw [hGlen]; exact hlen)
  have hL := rollMean_getLast? p (losses closes) hp (by rw [hLlen]; exact hlen)
  have hg2 : some g = some ((List.take p (List.drop ((gains closes).length - p)
      (gains closes))).sum / (p:ℚ)) := by
    rw [← hg]
    unfold avg_gain_last
    rw [hG]
    rfl
  have hl2 : some l = some ((List.take p (List.drop ((losses closes).length - p)
      (losses closes))).sum / (p:ℚ)) := by
    rw [← hl]
    unfold avg_loss_last
    rw [hL]
    rfl
  injection hg2 with hg3
  injection hl2 with hl3
  rw [hGlen, hm] at hg3
  rw [hLlen, hm] at hl3
  unfold rsi_last calculate_rsi rollMean
  rw [hGlen, hLlen, List.zipWith_map, List.zipWith_same]
  rw [hm, List.range_succ, List.map_append]
  simp only [List.map_cons, List.map_nil]
  rw [List.getLast?_concat]
  have hple : p ≤ m + 1 := by omega
  rw [if_pos hple, if_pos hple]
  rw [hg3, hl3]
  rfl

theorem zipWith_nonneg_of_nonneg (f : ℚ → ℚ → ℚ) (hf : ∀ a b, 0 ≤ f a b) :
    ∀ (l1 l2 : List ℚ), ∀ x ∈ List.zipWith f l1 l2, 0 ≤ x := by
  intro l1
  induction l1 with
  | nil =>
      intro l2 x hx
      simp at hx
  | cons a t ih =>
      intro l2 x hx
      cases l2 with
      | nil => simp at hx
      | cons b t2 =>
          rw [List.zipWith_cons_cons] at hx
          rcases List.mem_cons.mp hx with h0 | hmem
          · rw [h0]
            exact hf a b
          · exact ih t2 x hmem

theorem gains_nonneg (closes : List ℚ) : ∀ x ∈ gains closes, 0 ≤ x := by
  cases closes with
  | nil =>
      intro x hx
      simp [gains] at hx
  | cons c rest =>
      intro x hx
      rw [gains] at hx
      rcases List.mem_cons.mp hx with h0 | hz
      · rw [h0]
      · refine zipWith_nonneg_of_nonneg _ ?_ _ _ x hz
        intro a b
        split_ifs with h
        · linarith
        · exact le_refl 0

theorem losses_nonneg (closes : List ℚ) : ∀ x ∈ losses closes, 0 ≤ x := by
  cases closes with
  | nil =>
      intro x hx
      simp [losses] at hx
  | cons c rest =>
      intro x hx
      rw [losses] at hx
      rcases List.mem_cons.mp hx with h0 | hz
      · rw [h0]
      · refine zipWith_nonneg_of_nonneg _ ?_ _ _ x hz
        intro a b
        split_ifs with h
        · linarith
        · exact le_refl 0

theorem window_nonneg (l : List ℚ) (p k : ℕ) (hl : ∀ x ∈ l, 0 ≤ x) :
    0 ≤ ((l.drop k).take p).sum / (p:ℚ) := by
  apply div_nonneg
  · apply List.sum_nonneg
    intro x hx
    exact hl x (List.mem_of_mem_drop (List.mem_of_mem_take hx))
  · exact_mod_cast Nat.zero_le p

theorem rsiPoint_bounds (g l : ℚ) (hg : 0 ≤ g) (hl : 0 ≤ l) :
    ∀ x, rsiPoint g l = some x → 0 ≤ x ∧ x ≤ 100 := by
  intro x hx
  unfold rsiPoint at hx
  split_ifs at hx with h1 h2
  · injection hx with hx2
    rw [← hx2]
    norm_num
  · injection hx with hx2
    have hlpos : 0 < l := lt_of_le_of_ne hl (Ne.symm h1)
    have hrs : 0 ≤ g / l := div_nonneg hg (le_of_lt hlpos)
    have hden : (1:ℚ) ≤ 1 + g / l := by linarith
    have hdpos : (0:ℚ) < 1 + g / l := by linarith
    have hd1 : 100 / (1 + g / l) ≤ 100 := by
      apply div_le_self (by norm_num) hden
    have hd2 : 0 < 100 / (1 + g / l) := by
      apply div_pos (by norm_num) hdpos
    rw [← hx2]
    constructor <;> linarith

theorem gains_replicate (n : ℕ) (c : ℚ) :
    gains (List.replicate (n + 1) c) = List.replicate (n + 1) 0 := by
  rw [List.replicate_succ]
  simp only [gains]
  rw [← List.replicate_succ, List.zipWith_replicate]
  have hz : (if 0 < c - c then c - c else 0) = (0:ℚ) := by norm_num
  rw [hz]
  rw [show min (n + 1) n = n by omega]
  rw [← List.replicate_succ]

theorem losses_replicate (n : ℕ) (c : ℚ) :
    losses (List.replicate (n + 1) c) = List.replicate (n + 1) 0 := by
  rw [List.replicate_succ]
  simp only [losses]
  rw [← List.replicate_succ, List.zipWith_replicate]
  have hz : (if c - c < 0 then -(c - c) else 0) = (0:ℚ) := by norm_num
  rw [hz]
  rw [show min (n + 1) n = n by omega]
  rw [← List.replicate_succ]

/-- C8 (amended): on a series long enough for the RSI window, every numeric
(non-NaN) last RSI value lies in `[0, 100]`, and it is exactly `100`
whenever the trailing average loss is `0` while the trailing average gain
is positive; when gain and loss are both `0` the value is NaN, not `100`. -/
theorem claim8_rsi_range (closes : List ℚ) (p : ℕ) (hp : 0 < p)
    (hlen : p ≤ closes.length) :
    (∀ x, rsi_last closes p = some x → 0 ≤ x ∧ x ≤ 100) ∧
    (∀ g, avg_loss_last closes p = some 0 → avg_gain_last closes p = some g →
      0 < g → rsi_last closes p = some 100) := by
  have hGlen : (gains closes).length = closes.length := gains_length closes
  have hLlen : (losses closes).length = closes.length := losses_length closes
  have hG := rollMean_getLast? p (gains closes) hp (by rw [hGlen]; exact hlen)
  have hL := rollMean_getLast? p (losses closes) hp (by rw [hLlen]; exact hlen)
  have hgavg : avg_gain_last closes p =
      some ((((gains closes).drop ((gains closes).length - p)).take p).sum / (p:ℚ)) := by
    unfold avg_gain_last
    rw [hG]
    rfl
  have hlavg : avg_loss_last closes p =
      some ((((losses closes).drop ((losses closes).length - p)).take p).sum / (p:ℚ)) := by
    unfold avg_loss_last
    rw [hL]
    rfl
  have hgw0 : 0 ≤ (((gains closes).drop ((gains closes).length - p)).take p).sum / (p:ℚ) :=
    window_nonneg _ p _ (gains_nonneg closes)
  have hlw0 : 0 ≤ (((losses closes).drop ((losses closes).length - p)).take p).sum / (p:ℚ) :=
    window_nonneg _ p _ (losses_nonneg closes)
  have hrsi := calculate_rsi_getLast? closes p hp hlen _ _ hgavg hlavg
  constructor
  · intro x hx
    rw [hrsi] at hx
    exact rsiPoint_bounds _ _ hgw0 hlw0 x hx
  · intro g hl0 hgg hgpos
    have hlw : (((losses closes).drop ((losses closes).length - p)).take p).sum / (p:ℚ) = 0 := by
      rw [hlavg] at hl0
      injection hl0 with h
    have hgw : (((gains closes).drop ((gains closes).length - p)).take p).sum / (p:ℚ) = g := by
      rw [hgavg] at hgg
      injection hgg with h
    rw [hrsi, hlw, hgw]
    unfold rsiPoint
    rw [if_pos rfl, if_neg (ne_of_gt hgpos)]

/-- C8 (counterexample): on a flat 14-bar series the trailing average loss
is `0` but the average gain is also `0`, so `0/0` is NaN and the last RSI
is NaN (`none`) rather than the claimed `100`. -/
theorem claim8_counterexample :
    avg_loss_last (List.replicate 14 (100:ℚ)) 14 = some 0 ∧
    rsi_last (List.replicate 14 (100:ℚ)) 14 = Option.none := by
  have hlen : (List.replicate 14 (100:ℚ)).length = 14 := by simp
  have hg : gains (List.replicate 14 (100:ℚ)) = List.replicate 14 0 :=
    gains_replicate 13 100
  have hl : losses (List.replicate 14 (100:ℚ)) = List.replicate 14 0 :=
    losses_replicate 13 100
  have hwin : ((List.replicate 14 (0:ℚ)).drop
      ((List.replicate 14 (0:ℚ)).length - 14)).take 14 = List.replicate 14 0 := by
    simp
  have hG := rollMean_getLast? 14 (gains (List.replicate 14 (100:ℚ)))
    (by norm_num) (by rw [gains_length, hlen])
  have hL := rollMean_getLast? 14 (losses (List.replicate 14 (100:ℚ)))
    (by norm_num) (by rw [losses_length, hlen])
  have hlavg : avg_loss_last (List.replicate 14 (100:ℚ)) 14 = some 0 := by
    unfold avg_loss_last
    rw [hL, hl, hwin]
    simp
  have hgavg : avg_gain_last (List.replicate 14 (100:ℚ)) 14 = some 0 := by
    unfold avg_gain_last
    rw [hG, hg, hwin]
    simp
  refine ⟨hlavg, ?_⟩
  have hrsi := calculate_rsi_getLast? (List.replicate 14 (100:ℚ)) 14
    (by norm_num) (by rw [hlen]) 0 0 hgavg hlavg
  rw [hrsi]
  unfold rsiPoint
  rw [if_pos rfl, if_pos rfl]

end CryptoAnalyzer

namespace CryptoAnalyzer

/-- C8 witness: on the strictly increasing series `1..15` the trailing
average loss is `0`, the average gain is `1 > 0`, and the last RSI
saturates at exactly `100`. -/
theorem claim8_witness :
    (0:ℕ) < 14 ∧
    (14:ℕ) ≤ ([1, 2, 3, 4, 5, 6, 7, 8, 9, 10, 11, 12, 13, 14, 15] : List ℚ).length ∧
    avg_loss_last [1, 2, 3, 4, 5, 6, 7, 8, 9, 10, 11, 12, 13, 14, 15] 14 = some 0 ∧
    avg_gain_last [1, 2, 3, 4, 5, 6, 7, 8, 9, 10, 11, 12, 13, 14, 15] 14 = some 1 ∧
    (0:ℚ) < 1 ∧
    rsi_last [1, 2, 3, 4, 5, 6, 7, 8, 9, 10, 11, 12, 13, 14, 15] 14 = some 100 := by
  have hgains : gains ([1, 2, 3, 4, 5, 6, 7, 8, 9, 10, 11, 12, 13, 14, 15] : List ℚ) =
      [0, 1, 1, 1, 1, 1, 1, 1, 1, 1, 1, 1, 1, 1, 1] := by
    norm_num [gains, List.zipWith_cons_cons]
  have hlosses : losses ([1, 2, 3, 4, 5, 6, 7, 8, 9, 10, 11, 12, 13, 14, 15] : List ℚ) =
      [0, 0, 0, 0, 0, 0, 0, 0, 0, 0, 0, 0, 0, 0, 0] := by
    norm_num [losses, List.zipWith_cons_cons]
  have hG := rollMean_getLast? 14
    (gains ([1, 2, 3, 4, 5, 6, 7, 8, 9, 10, 11, 12, 13, 14, 15] : List ℚ))
    (by norm_num) (by rw [hgains]; norm_num)
  have hL := rollMean_getLast? 14
    (losses ([1, 2, 3, 4, 5, 6, 7, 8, 9, 10, 11, 12, 13, 14, 15] : List ℚ))
    (by norm_num) (by rw [hlosses]; norm_num)
  have hgavg : avg_gain_last [1, 2, 3, 4, 5, 6, 7, 8, 9, 10, 11, 12, 13, 14, 15] 14 =
      some 1 := by
    unfold avg_gain_last
    rw [hG, hgains]
    norm_num
  have hlavg : avg_loss_last [1, 2, 3, 4, 5, 6, 7, 8, 9, 10, 11, 12, 13, 14, 15] 14 =
      some 0 := by
    unfold avg_loss_last
    rw [hL, hlosses]
    norm_num
  refine ⟨by norm_num, by norm_num, hlavg, hgavg, by norm_num, ?_⟩
  exact (claim8_rsi_range [1, 2, 3, 4, 5, 6, 7, 8, 9, 10, 11, 12, 13, 14, 15] 14
    (by norm_num) (by norm_num)).2 1 hlavg hgavg (by norm_num)

end CryptoAnalyzer
